import Mathlib

/-!
# Shallow embedding of the Qobuz plugin's reporter and autoplay subsystems

Definitions translate `qobuz_reporter.py` (QobuzReporter) and
`qobuz_autoplay.py` (QobuzAutoplay) into Lean.  Python exceptions are
modelled explicitly: each handler returns the state as mutated so far, the
messages enqueued so far, and an optional uncaught exception, matching
Python's in-place mutation semantics when an exception propagates mid-way.
Machine integers are `Int`; Python `int(str)` conversion is modelled by
`py_str_to_int`; Python's truncating float-to-int division by `Int.tdiv`.
-/

/-- A track entity id as used by the host SDK: `track.id.source` and
`track.id.id` (the provider's raw id, a string). -/
structure TrackEntityId where
  source : String
  id : String
deriving DecidableEq, Repr

/-- The part of a host `Track` that the reporter reads: only `track.id`. -/
structure RTrack where
  id : TrackEntityId
deriving DecidableEq, Repr

/-- Player states of the host SDK (`PlayerStateEnum`).  The SDK is an
external dependency; per its contract the enum values compare equal to the
strings "PLAYING", "STOPPED", "PAUSED", "ERROR", so the source's membership
test `player_state.state in ["STOPPED", "PAUSED", "ERROR"]` is modelled as
a match on these three constructors. -/
inductive PlayerStateEnum where
  | PLAYING
  | STOPPED
  | PAUSED
  | ERROR
deriving DecidableEq, Repr

/-- The host `PlayerState`: a state enum and an optional current track. -/
structure PlayerState where
  state : PlayerStateEnum
  current_track : Option RTrack
deriving DecidableEq, Repr

/-- An event payload delivered to `on_state_changed`.  Anything that is not
a `StateChangedEvent` is logged and ignored by the source. -/
inductive AnyEventPayload where
  | stateChanged (s : PlayerState)
  | otherEvent
deriving DecidableEq, Repr

/-- The fields the reporter reads from a cached track-URL response:
`track_cache["format_id"]` and `track_cache["duration"]`. -/
structure TrackCacheEntry where
  format_id : Int
  duration : Int
deriving DecidableEq, Repr

/-- The part of `QobuzClient` the reporter uses: account identifiers and
`track_url_response_cache`, a mapping keyed by the stringified track id
(populated by `get_track_url` as `cache[str(track_id)] = r.json()`). -/
structure QobuzClientModel where
  user_id : Int
  credential_id : Int
  track_url_response_cache : List (String × TrackCacheEntry)
deriving DecidableEq, Repr

/-- Dictionary lookup in the track-URL cache. -/
def cache_lookup (c : QobuzClientModel) (k : String) : Option TrackCacheEntry :=
  (c.track_url_response_cache.find? (fun p => p.1 == k)).map (fun p => p.2)

/-- `QobuzReporter`'s own mutable state: `last_report_time` (monotonic ns)
and `current_track_id` (an `Optional[str]`). -/
structure ReporterState where
  last_report_time : Int
  current_track_id : Option String
deriving DecidableEq, Repr

/-- Reporter state as initialised by `QobuzReporter.__init__`. -/
def init_reporter_state : ReporterState :=
  { last_report_time := 0, current_track_id := none }

/-- `get_last_duration`: reads the elapsed whole seconds since the last
reset and resets the clock to `now` as a side effect.  Python's
`int((report_time - last) / 1_000_000_000)` truncates toward zero. -/
def get_last_duration (now : Int) (s : ReporterState) : Int × ReporterState :=
  (Int.tdiv (now - s.last_report_time) 1000000000,
   { s with last_report_time := now })

/-- Payload of `track/reportStreamingStart` as built by
`_make_start_report_message`. -/
structure StartReportParams where
  user_id : Int
  credential_id : Int
  date : Int
  track_id : Int
  format_id : Int
  duration : Int
  online : Bool
  intent : String
  local_flag : Bool
  purchase : Bool
  sample : Bool
  seek : Int
  totalTrackDuration : Int
deriving DecidableEq, Repr

/-- Payload of `track/reportStreamingEnd` as built by
`_make_end_report_message` (no `totalTrackDuration`). -/
structure EndReportParams where
  user_id : Int
  credential_id : Int
  date : Int
  track_id : Int
  format_id : Int
  duration : Int
  online : Bool
  intent : String
  local_flag : Bool
  purchase : Bool
  sample : Bool
  seek : Int
deriving DecidableEq, Repr

/-- A message placed on the reporter's delivery queue: the endpoint string
together with its params dict. -/
inductive ReportMessage where
  | startMsg (params : StartReportParams)
  | endMsg (params : EndReportParams)
deriving DecidableEq, Repr

/-- The endpoint string stored with each queued message. -/
def message_endpoint : ReportMessage → String
  | .startMsg _ => "track/reportStreamingStart"
  | .endMsg _ => "track/reportStreamingEnd"

/-- The `track_id` field of a queued message's params. -/
def message_track_id : ReportMessage → Int
  | .startMsg p => p.track_id
  | .endMsg p => p.track_id

/-- Value of a decimal digit character, when it is one. -/
def char_digit (ch : Char) : Option Nat :=
  if ch.toNat ≥ 48 ∧ ch.toNat ≤ 57 then some (ch.toNat - 48) else none

/-- Folds a digit string into a number; `none` on a non-digit or on an
empty digit sequence. -/
def digits_to_nat : List Char → Option Nat → Option Nat
  | [], acc => acc
  | ch :: rest, acc =>
    match char_digit ch, acc with
    | some d, some n => digits_to_nat rest (some (n * 10 + d))
    | some d, none => digits_to_nat rest (some d)
    | none, _ => none

/-- Python's `int(str)` conversion (an optional sign followed by decimal
digits; anything else raises ValueError, modelled as `none`). -/
def py_str_to_int (s : String) : Option Int :=
  match s.data with
  | '-' :: rest => (digits_to_nat rest none).map (fun n => -(n : Int))
  | l => (digits_to_nat l none).map (fun n => (n : Int))

/-- `_make_start_report_message(track_id)`: converts the id to int (raising
on failure), then requires the id in the track-URL cache (raising on a
miss), then builds the payload. -/
def make_start_report_message (c : QobuzClientModel) (date : Int)
    (track_id : String) : Except String StartReportParams :=
  match py_str_to_int track_id with
  | none => .error "Track id is not convertible to int"
  | some track_id_int =>
    match cache_lookup c track_id with
    | none => .error "Track not found in cache"
    | some track_cache =>
      .ok { user_id := c.user_id, credential_id := c.credential_id,
            date := date, track_id := track_id_int,
            format_id := track_cache.format_id, duration := 0,
            online := true, intent := "streaming", local_flag := false,
            purchase := false, sample := false, seek := 0,
            totalTrackDuration := track_cache.duration }

/-- `_make_end_report_message(track_id, duration_s)`: int conversion, then
negative duration clamped to 0 (logged), then cache lookup, then payload. -/
def make_end_report_message (c : QobuzClientModel) (date : Int)
    (track_id : String) (duration_s : Int) : Except String EndReportParams :=
  match py_str_to_int track_id with
  | none => .error "Track id is not convertible to int"
  | some track_id_int =>
    let duration_clamped := if duration_s < 0 then 0 else duration_s
    match cache_lookup c track_id with
    | none => .error "Track not found in cache"
    | some track_cache =>
      .ok { user_id := c.user_id, credential_id := c.credential_id,
            date := date, track_id := track_id_int,
            format_id := track_cache.format_id,
            duration := duration_clamped, online := true,
            intent := "streaming", local_flag := false, purchase := false,
            sample := false, seek := 0 }

/-- Outcome of one `on_state_changed` call: the reporter state as mutated
so far, the messages put on the queue so far (in order), and the uncaught
exception if one propagated out of the handler. -/
structure HandlerResult where
  state : ReporterState
  enqueued : List ReportMessage
  error : Option String
deriving DecidableEq, Repr

/-- Shared tail of the non-provider-PLAYING and STOPPED/PAUSED/ERROR
branches: if a track is being tracked, enqueue its end report and clear
`current_track_id`; argument evaluation order (the clock reset happens
before the payload builder may raise) is preserved. -/
def end_current_tracking (c : QobuzClientModel) (now date : Int)
    (s : ReporterState) : HandlerResult :=
  match s.current_track_id with
  | none => ⟨s, [], none⟩
  | some prev =>
    let (dur, s1) := get_last_duration now s
    match make_end_report_message c date prev dur with
    | .error e => ⟨s1, [], some e⟩
    | .ok endp =>
      ⟨{ s1 with current_track_id := none }, [.endMsg endp], none⟩

/-- `QobuzReporter.on_state_changed`, with `now` the monotonic clock value
(ns) and `date` the wall clock (epoch s) at the time of the call. -/
def on_state_changed (c : QobuzClientModel) (now date : Int)
    (ev : AnyEventPayload) (s : ReporterState) : HandlerResult :=
  match ev with
  | .otherEvent => ⟨s, [], none⟩
  | .stateChanged player_state =>
    match player_state.state with
    | .PLAYING =>
      match player_state.current_track with
      | some track =>
        if track.id.source == "qobuz" then
          let current_qobuz_track_id := track.id.id
          if some current_qobuz_track_id ≠ s.current_track_id then
            match s.current_track_id with
            | some prev =>
              let (dur, s1) := get_last_duration now s
              match make_end_report_message c date prev dur with
              | .error e => ⟨s1, [], some e⟩
              | .ok endp =>
                let s2 := { s1 with
                  current_track_id := some current_qobuz_track_id }
                match make_start_report_message c date
                    current_qobuz_track_id with
                | .error e => ⟨s2, [.endMsg endp], some e⟩
                | .ok startp =>
                  let (_, s3) := get_last_duration now s2
                  ⟨s3, [.endMsg endp, .startMsg startp], none⟩
            | none =>
              let s2 := { s with
                current_track_id := some current_qobuz_track_id }
              match make_start_report_message c date
                  current_qobuz_track_id with
              | .error e => ⟨s2, [], some e⟩
              | .ok startp =>
                let (_, s3) := get_last_duration now s2
                ⟨s3, [.startMsg startp], none⟩
          else
            match s.current_track_id with
            | some prev =>
              let (dur, s1) := get_last_duration now s
              match make_end_report_message c date prev dur with
              | .error e => ⟨s1, [], some e⟩
              | .ok endp => ⟨s1, [.endMsg endp], none⟩
            | none => ⟨s, [], none⟩
        else
          end_current_tracking c now date s
      | none => end_current_tracking c now date s
    | .STOPPED => end_current_tracking c now date s
    | .PAUSED => end_current_tracking c now date s
    | .ERROR => end_current_tracking c now date s

/-- One notification delivered to the reporter, with the clock readings at
the moment of delivery. -/
structure RInput where
  now : Int
  date : Int
  ev : AnyEventPayload
deriving DecidableEq, Repr

/-- Runs a sequence of notifications through `on_state_changed`,
accumulating the enqueued messages and any uncaught exceptions (the
reporter object survives an exception and keeps receiving events). -/
def run_reporter (c : QobuzClientModel) :
    List RInput → ReporterState → ReporterState × List ReportMessage × List String
  | [], s => (s, [], [])
  | i :: rest, s =>
    let r := on_state_changed c i.now i.date i.ev s
    let (s2, msgs, errs) := run_reporter c rest r.state
    (s2, r.enqueued ++ msgs, r.error.toList ++ errs)

/-- Number of StreamingStart messages in a queue segment. -/
def count_starts (l : List ReportMessage) : Nat :=
  (l.filter (fun m => match m with | .startMsg _ => true | .endMsg _ => false)).length

/-- Number of StreamingEnd messages in a queue segment. -/
def count_ends (l : List ReportMessage) : Nat :=
  (l.filter (fun m => match m with | .startMsg _ => false | .endMsg _ => true)).length

/-- Items on the reporter's `mqueue`: real messages, or the `None` sentinel
that `shutdown` puts to stop the sender. -/
abbrev QueueItem := Option ReportMessage

/-- `shutdown` enqueues the sentinel at the end of whatever is queued. -/
def shutdown_enqueue (q : List QueueItem) : List QueueItem :=
  q ++ [none]

/-- `_sender_worker`'s observable behaviour: the list of messages it posts
to the provider, as a function of the eventual queue contents.  `fuel`
counts the loop iterations executed while `_isRunning` was still true
(shutdown flips the flag, so the loop also stops when fuel runs out); the
loop breaks upon dequeuing the `none` sentinel; on an empty queue the
blocking `get` never returns, so nothing further is sent. -/
def sender_sends (fuel : Nat) (queue : List QueueItem) : List ReportMessage :=
  match fuel, queue with
  | 0, _ => []
  | _ + 1, [] => []
  | _ + 1, none :: _ => []
  | f + 1, some m :: rest => m :: sender_sends f rest

/-- Python `int(str)` for an optional value (used by the autoplay feature
extraction, where absent performer/genre/label map to `None`). -/
def py_int_of_opt : Option String → Except String (Option Int)
  | none => .ok none
  | some s =>
    match py_str_to_int s with
    | none => .error "invalid literal for int"
    | some n => .ok (some n)

/-- Python `int(str)` on a required value. -/
def py_int (s : String) : Except String Int :=
  match py_str_to_int s with
  | none => .error "invalid literal for int"
  | some n => .ok n

/-- A reference carried by `track.performer`, `track.album.genre` or
`track.album.label`: only its entity id is read. -/
structure EntityRef where
  id : TrackEntityId
deriving DecidableEq, Repr

/-- The album fields the autoplay feature extraction reads. -/
structure AlbumMeta where
  genre : Option EntityRef
  label : Option EntityRef
deriving DecidableEq, Repr

/-- The part of a host `Track` the autoplay engine reads. -/
structure ATrack where
  id : TrackEntityId
  performer : Option EntityRef
  album : AlbumMeta
deriving DecidableEq, Repr

/-- The feature dict built by `_track_meta_to_autoplay`. -/
structure AutoplayMeta where
  artist_id : Option Int
  genre_id : Option Int
  label_id : Option Int
  track_id : Option Int
deriving DecidableEq, Repr

/-- `QobuzAutoplay._track_meta_to_autoplay`: each present reference id is
converted with `int(...)`, which raises on a non-numeric string. -/
def track_meta_to_autoplay (t : ATrack) : Except String AutoplayMeta := do
  let artist ← py_int_of_opt (t.performer.map (fun p => p.id.id))
  let genre ← py_int_of_opt (t.album.genre.map (fun g => g.id.id))
  let label_id ← py_int_of_opt (t.album.label.map (fun l => l.id.id))
  let track ← py_int t.id.id
  return { artist_id := artist, genre_id := genre, label_id := label_id,
           track_id := some track }

/-- `QobuzAutoplay`'s mutable state. -/
structure AutoplayState where
  tracks : List ATrack
  remaining_tracks : List String
  suggested_tracks : Finset String
  amount_to_request : Nat
  can_request_new : Bool
deriving DecidableEq

/-- Autoplay state as initialised by `QobuzAutoplay.__init__`. -/
def init_autoplay_state : AutoplayState :=
  { tracks := [], remaining_tracks := [], suggested_tracks := ∅,
    amount_to_request := 50, can_request_new := true }

/-- Events delivered to the autoplay engine.  `requestMoreTracks` carries
the provider's recommendation response (the list of track ids the
`dynamic/suggest` call would return) as an oracle, so that the network is
modelled as an input. -/
inductive AEvent where
  | tracksAdded (ts : List ATrack)
  | tracksRemoved (indices : List Nat)
  | requestMoreTracks (oracle : List String)
  | otherEvent
deriving DecidableEq

/-- `QobuzAutoplay.add_tracks`: append to the mirror, re-arm fetching.
Non-`TracksAddedEvent` payloads are logged and ignored. -/
def add_tracks (ev : AEvent) (s : AutoplayState) : AutoplayState :=
  match ev with
  | .tracksAdded ts =>
    { s with tracks := s.tracks ++ ts, can_request_new := true }
  | _ => s

/-- The source's `for track in event.indices: del self.tracks[track]`:
each deletion indexes the list as already mutated by the previous ones; an
out-of-range index raises IndexError, abandoning the rest of the loop with
the deletions so far kept. -/
def remove_loop (l : List ATrack) : List Nat → List ATrack × Option String
  | [] => (l, none)
  | i :: rest =>
    if i < l.length then remove_loop (l.eraseIdx i) rest
    else (l, some "IndexError")

/-- `_has_any_qobuz_tracks`. -/
def has_any_qobuz_tracks (l : List ATrack) : Bool :=
  l.any (fun t => t.id.source == "qobuz")

/-- `QobuzAutoplay.remove_tracks`: sequential deletions; when they all
succeed and no provider track remains, the context is reset.  When a
deletion raises, the exception propagates before the reset check runs. -/
def remove_tracks (ev : AEvent) (s : AutoplayState) :
    AutoplayState × Option String :=
  match ev with
  | .tracksRemoved indices =>
    let (ts, err) := remove_loop s.tracks indices
    match err with
    | some e => ({ s with tracks := ts }, some e)
    | none =>
      if has_any_qobuz_tracks ts then ({ s with tracks := ts }, none)
      else
        ({ s with tracks := ts, can_request_new := true,
                  suggested_tracks := ∅, remaining_tracks := [] }, none)
  | _ => (s, none)

/-- The provider-sourced sublist of the mirror
(`[track for track in self.tracks if track.id.source == "qobuz"]`). -/
def qobuz_tracks (s : AutoplayState) : List ATrack :=
  s.tracks.filter (fun t => t.id.source == "qobuz")

/-- The selection loop of `_retrieve_new_recommendations`: walks the given
list (the provider sublist, newest first), stopping once five tracks have
been collected, appending each track whose id is not already suggested. -/
def five_loop (sug : Finset String) : List ATrack → List ATrack → List ATrack
  | acc, [] => acc
  | acc, t :: rest =>
    if acc.length == 5 then acc
    else if t.id.id ∈ sug then five_loop sug acc rest
    else five_loop sug (acc ++ [t]) rest

/-- `five_tracks_to_analyse` as computed by the source: the loop runs over
indices `len(tracks)-1 .. 0`, i.e. over the reversed provider sublist. -/
def five_tracks_to_analyse (s : AutoplayState) : List ATrack :=
  five_loop s.suggested_tracks [] (qobuz_tracks s).reverse

/-- `tta_ids`: raw ids of the analyzed tracks. -/
def tta_ids (s : AutoplayState) : List String :=
  (five_tracks_to_analyse s).map (fun t => t.id.id)

/-- The provider tracks sent as listened: every provider-sourced mirror
entry whose id is not among the analyzed ids (before int conversion). -/
def listened_src (s : AutoplayState) : List ATrack :=
  (qobuz_tracks s).filter (fun t => t.id.id ∉ tta_ids s)

/-- The body posted to `dynamic/suggest`. -/
structure SuggestParams where
  limit : Nat
  listened_tracks_ids : List Int
  track_to_analysed : List AutoplayMeta
deriving DecidableEq, Repr

/-- Outcome of `_retrieve_new_recommendations`: the state as mutated, the
posted request body when the network call was made, and the uncaught
exception if one propagated. -/
structure RetrieveResult where
  state : AutoplayState
  posted : Option SuggestParams
  error : Option String
deriving DecidableEq

/-- `QobuzAutoplay._retrieve_new_recommendations` with the provider's
response supplied as `oracle`.  Feature extraction and listened-id
conversion happen before the POST; a conversion failure raises before any
mutation.  On success the response ids replace `remaining_tracks` and
`can_request_new` flips false. -/
def retrieve_new_recommendations (oracle : List String) (s : AutoplayState) :
    RetrieveResult :=
  if (qobuz_tracks s).isEmpty then ⟨s, none, none⟩
  else
    match (five_tracks_to_analyse s).mapM track_meta_to_autoplay with
    | .error e => ⟨s, none, some e⟩
    | .ok tracks_to_analyze =>
      match (listened_src s).mapM (fun t => py_int t.id.id) with
      | .error e => ⟨s, none, some e⟩
      | .ok listened_tracks =>
        ⟨{ s with remaining_tracks := oracle, can_request_new := false },
         some { limit := s.amount_to_request,
                listened_tracks_ids := listened_tracks,
                track_to_analysed := tracks_to_analyze },
         none⟩

/-- Outcome of `add_recommendation`: mutated state, the `dynamic/suggest`
body when that call happened, the track ids pushed to the host play queue,
and the uncaught exception if one propagated. -/
structure AddRecResult where
  state : AutoplayState
  posted : Option SuggestParams
  pushed : List String
  error : Option String
deriving DecidableEq

/-- `QobuzAutoplay.add_recommendation`: lazily refill `remaining_tracks`
when empty and a fetch is armed; if still empty, log and return; otherwise
pop the head, record it in `suggested_tracks`, and push it to the host
play queue. -/
def add_recommendation (ev : AEvent) (s : AutoplayState) : AddRecResult :=
  match ev with
  | .requestMoreTracks oracle =>
    let r1 : RetrieveResult :=
      if s.remaining_tracks.isEmpty then
        if s.can_request_new then retrieve_new_recommendations oracle s
        else ⟨s, none, none⟩
      else ⟨s, none, none⟩
    match r1.error with
    | some e => ⟨r1.state, r1.posted, [], some e⟩
    | none =>
      match r1.state.remaining_tracks with
      | [] => ⟨r1.state, r1.posted, [], none⟩
      | recommended_track :: rest =>
        ⟨{ r1.state with
             remaining_tracks := rest,
             suggested_tracks :=
               insert recommended_track r1.state.suggested_tracks },
         r1.posted, [recommended_track], none⟩
  | _ => ⟨s, none, [], none⟩

/-- Dispatches one host event to the handler subscribed to it. -/
def autoplay_step (ev : AEvent) (s : AutoplayState) :
    AutoplayState × Option SuggestParams × List String × Option String :=
  match ev with
  | .tracksAdded _ => (add_tracks ev s, none, [], none)
  | .tracksRemoved _ =>
    let (s2, err) := remove_tracks ev s
    (s2, none, [], err)
  | .requestMoreTracks _ =>
    let r := add_recommendation ev s
    (r.state, r.posted, r.pushed, r.error)
  | .otherEvent => (s, none, [], none)

/-- Runs a sequence of host events through the autoplay engine,
accumulating every id pushed to the play queue. -/
def run_autoplay : List AEvent → AutoplayState → AutoplayState × List String
  | [], s => (s, [])
  | e :: rest, s =>
    let (s1, _, pushed, _) := autoplay_step e s
    let (s2, rest_pushed) := run_autoplay rest s1
    (s2, pushed ++ rest_pushed)

/-- All ids the provider returns across a trace (concatenation of the
`requestMoreTracks` oracles). -/
def oracle_ids : List AEvent → List String
  | [] => []
  | .requestMoreTracks o :: rest => o ++ oracle_ids rest
  | _ :: rest => oracle_ids rest

/-- Spec-side removal semantics for claim C8: keep exactly the entries
whose position in the original list is not among the given indices
(`k` is the position of the list head). -/
def keep_except (indices : List Nat) (k : Nat) : List ATrack → List ATrack
  | [] => []
  | t :: rest =>
    if k ∈ indices then keep_except indices (k + 1) rest
    else t :: keep_except indices (k + 1) rest

/-- States reachable by the autoplay engine along traces in which no
handler raised (every step's error component is `none`). -/
inductive ReachableOk : AutoplayState → Prop where
  | init : ReachableOk init_autoplay_state
  | step (s : AutoplayState) (ev : AEvent) (h : ReachableOk s)
      (herr : (autoplay_step ev s).2.2.2 = none) :
      ReachableOk (autoplay_step ev s).1

/-- Tracking potential of a reporter state: 1 while a track is tracked. -/
def tracking_potential (s : ReporterState) : Int :=
  if s.current_track_id.isSome then 1 else 0

/-- A sample client with three cached track-URL responses. -/
def demo_client : QobuzClientModel :=
  { user_id := 11, credential_id := 22,
    track_url_response_cache :=
      [("7", ⟨6, 200⟩), ("8", ⟨6, 180⟩), ("abc", ⟨6, 120⟩)] }

/-- A client whose track-URL cache is empty. -/
def empty_cache_client : QobuzClientModel :=
  { user_id := 11, credential_id := 22, track_url_response_cache := [] }

/-- A PLAYING notification for a provider track with raw id `x`. -/
def qobuz_play_event (x : String) : AnyEventPayload :=
  .stateChanged ⟨.PLAYING, some ⟨⟨"qobuz", x⟩⟩⟩

/-- A STOPPED notification with no current track. -/
def stopped_event : AnyEventPayload :=
  .stateChanged ⟨.STOPPED, none⟩

/-- Same provider track delivered twice while PLAYING. -/
def c1_trace : List RInput :=
  [⟨1000000000, 500, qobuz_play_event "7"⟩,
   ⟨3000000000, 501, qobuz_play_event "7"⟩]

/-- Provider track A then a different provider track B while PLAYING. -/
def c3_trace : List RInput :=
  [⟨1000000000, 500, qobuz_play_event "7"⟩,
   ⟨3000000000, 501, qobuz_play_event "8"⟩]

/-- A provider-sourced mirror entry with raw id `x` and no optional
metadata. -/
def mk_qobuz_track (x : String) : ATrack :=
  ⟨⟨"qobuz", x⟩, none, ⟨none, none⟩⟩

/-- A mirror entry from another source. -/
def mk_radio_track (x : String) : ATrack :=
  ⟨⟨"radio", x⟩, none, ⟨none, none⟩⟩

/-- The spec scenario for the batch fetch: a mirror of 7 provider tracks
of which the two newest are already suggested. -/
def c6_state : AutoplayState :=
  { tracks := [mk_qobuz_track "1", mk_qobuz_track "2", mk_qobuz_track "3",
               mk_qobuz_track "4", mk_qobuz_track "5", mk_qobuz_track "6",
               mk_qobuz_track "7"],
    remaining_tracks := [], suggested_tracks := {"6", "7"},
    amount_to_request := 50, can_request_new := true }

/-- A trace in which a later batch returns an id already served: the
provider answers `["100", "101"]` first and `["100"]` again later. -/
def c7_trace : List AEvent :=
  [.tracksAdded [mk_qobuz_track "1"],
   .requestMoreTracks ["100", "101"],
   .tracksAdded [mk_qobuz_track "2"],
   .requestMoreTracks [],
   .requestMoreTracks ["100"]]

/-- A three-entry mirror to remove positions from. -/
def c8_tracks : List ATrack :=
  [mk_qobuz_track "1", mk_qobuz_track "2", mk_qobuz_track "3"]

/-- A trace whose removal event deletes the only provider track but then
raises IndexError mid-loop, skipping the context reset. -/
def c9_trace : List AEvent :=
  [.tracksAdded [mk_qobuz_track "1", mk_radio_track "9"],
   .requestMoreTracks ["100", "101"],
   .tracksRemoved [0, 1]]

/-- The end-report payload produced in the demo runs. -/
def demo_end_params : EndReportParams :=
  ⟨11, 22, 501, 7, 6, 2, true, "streaming", false, false, false, 0⟩

/-- The start-report payload produced in the demo runs. -/
def demo_start_params : StartReportParams :=
  ⟨11, 22, 501, 8, 6, 0, true, "streaming", false, false, false, 0, 180⟩

/-- An autoplay state whose mirror is `c8_tracks`. -/
def c8_state : AutoplayState :=
  { init_autoplay_state with tracks := c8_tracks }

/-- The state reached by `c9_trace`: provider-free mirror, uncleared
`remaining_tracks` (the removal raised IndexError mid-loop). -/
def c9_bad_state : AutoplayState :=
  (run_autoplay c9_trace init_autoplay_state).1

theorem count_starts_append (a b : List ReportMessage) :
    count_starts (a ++ b) = count_starts a + count_starts b := by
  simp [count_starts, List.filter_append]

theorem count_ends_append (a b : List ReportMessage) :
    count_ends (a ++ b) = count_ends a + count_ends b := by
  simp [count_ends, List.filter_append]

theorem sender_sends_mem (fuel : Nat) (pre post : List QueueItem)
    (m : ReportMessage) (hm : m ∈ sender_sends fuel (pre ++ none :: post)) :
    m ∈ pre.filterMap id := by
  induction pre generalizing fuel with
  | nil =>
    cases fuel with
    | zero => simp [sender_sends] at hm
    | succ f => simp [sender_sends] at hm
  | cons x rest ih =>
    cases fuel with
    | zero => simp [sender_sends] at hm
    | succ f =>
      cases x with
      | none => simp [sender_sends] at hm
      | some v =>
        rw [List.cons_append] at hm
        simp only [sender_sends, List.mem_cons] at hm
        rcases hm with h | h
        · simp [List.filterMap_cons, h]
        · simpa [List.filterMap_cons] using Or.inr (ih f h)

theorem sender_sends_stops_at_sentinel (fuel : Nat)
    (pre post : List QueueItem) (hpre : ∀ x ∈ pre, x.isSome = true)
    (hfuel : pre.length < fuel) :
    sender_sends fuel (pre ++ none :: post) = pre.filterMap id := by
  induction pre generalizing fuel with
  | nil =>
    cases fuel with
    | zero => omega
    | succ f => simp [sender_sends]
  | cons x rest ih =>
    cases fuel with
    | zero => omega
    | succ f =>
      cases x with
      | none =>
        have := hpre none (by simp)
        simp at this
      | some v =>
        rw [List.cons_append]
        simp only [sender_sends, List.filterMap_cons, id]
        have hrest : ∀ x ∈ rest, x.isSome = true := by
          intro x hx; exact hpre x (by simp [hx])
        have hf : rest.length < f := by
          simp at hfuel; omega
        rw [ih f hrest hf]

theorem end_current_tracking_count (c : QobuzClientModel) (now date : Int)
    (s : ReporterState) :
    (count_starts (end_current_tracking c now date s).enqueued : Int) -
      count_ends (end_current_tracking c now date s).enqueued ≤
    tracking_potential (end_current_tracking c now date s).state -
      tracking_potential s := by
  unfold end_current_tracking
  cases h : s.current_track_id with
  | none => simp [count_starts, count_ends]
  | some prev =>
    simp only [get_last_duration]
    cases hmk : make_end_report_message c date prev
        (Int.tdiv (now - s.last_report_time) 1000000000) with
    | error e =>
      simp [count_starts, count_ends, tracking_potential, h]
    | ok endp =>
      simp [count_starts, count_ends, tracking_potential, h, List.filter]

theorem on_state_changed_count (c : QobuzClientModel) (now date : Int)
    (ev : AnyEventPayload) (s : ReporterState) :
    (count_starts (on_state_changed c now date ev s).enqueued : Int) -
      count_ends (on_state_changed c now date ev s).enqueued ≤
    tracking_potential (on_state_changed c now date ev s).state -
      tracking_potential s := by
  cases ev with
  | otherEvent => simp [on_state_changed, count_starts, count_ends]
  | stateChanged ps =>
    obtain ⟨st, tr⟩ := ps
    cases st with
    | STOPPED => exact end_current_tracking_count c now date s
    | PAUSED => exact end_current_tracking_count c now date s
    | ERROR => exact end_current_tracking_count c now date s
    | PLAYING =>
      cases tr with
      | none => exact end_current_tracking_count c now date s
      | some track =>
        simp only [on_state_changed]
        by_cases hsrc : track.id.source = "qobuz"
        · simp only [hsrc, beq_self_eq_true, if_true]
          by_cases hne : some track.id.id ≠ s.current_track_id
          · rw [if_pos hne]
            cases h : s.current_track_id with
            | none =>
              cases hmk : make_start_report_message c date track.id.id with
              | error e =>
                simp [count_starts, count_ends, tracking_potential, h]
              | ok startp =>
                simp [count_starts, count_ends, tracking_potential, h,
                  List.filter, get_last_duration]
            | some prev =>
              simp only [get_last_duration]
              cases hmk : make_end_report_message c date prev
                  (Int.tdiv (now - s.last_report_time) 1000000000) with
              | error e =>
                simp [count_starts, count_ends, tracking_potential, h]
              | ok endp =>
                cases hmk2 : make_start_report_message c date track.id.id with
                | error e =>
                  simp [count_starts, count_ends, tracking_potential, h,
                    List.filter]
                | ok startp =>
                  simp [count_starts, count_ends, tracking_potential, h,
                    List.filter]
          · rw [if_neg hne]
            cases h : s.current_track_id with
            | none => simp [count_starts, count_ends]
            | some prev =>
              simp only [get_last_duration]
              cases hmk : make_end_report_message c date prev
                  (Int.tdiv (now - s.last_report_time) 1000000000) with
              | error e =>
                simp [count_starts, count_ends, tracking_potential, h]
              | ok endp =>
                simp [count_starts, count_ends, tracking_potential, h,
                  List.filter]
        · have : (track.id.source == "qobuz") = false := by
            simp [hsrc]
          simp only [this, Bool.false_eq_true, if_false]
          exact end_current_tracking_count c now date s

theorem run_reporter_count (c : QobuzClientModel) (inputs : List RInput) :
    ∀ s : ReporterState,
    (count_starts (run_reporter c inputs s).2.1 : Int) -
      count_ends (run_reporter c inputs s).2.1 ≤
    tracking_potential (run_reporter c inputs s).1 - tracking_potential s := by
  induction inputs with
  | nil => intro s; simp [run_reporter, count_starts, count_ends]
  | cons i rest ih =>
    intro s
    have hstep := on_state_changed_count c i.now i.date i.ev s
    have hrest := ih (on_state_changed c i.now i.date i.ev s).state
    simp only [run_reporter]
    rcases hrun : run_reporter c rest (on_state_changed c i.now i.date i.ev s).state
      with ⟨s2, msgs, errs⟩
    rw [hrun] at hrest
    simp only [count_starts_append, count_ends_append] at *
    push_cast at *
    omega

/-- C1 (amended): if the queue holds more StreamingStart than StreamingEnd
messages, then a track is being tracked; the converse of the original
invariant fails (see the counterexample). -/
theorem c1_unmatched_start_implies_tracking (c : QobuzClientModel)
    (inputs : List RInput)
    (h : count_ends (run_reporter c inputs init_reporter_state).2.1 <
      count_starts (run_reporter c inputs init_reporter_state).2.1) :
    (run_reporter c inputs init_reporter_state).1.current_track_id.isSome = true := by
  have hb := run_reporter_count c inputs init_reporter_state
  simp only [tracking_potential] at hb
  by_contra hnone
  rw [Bool.not_eq_true] at hnone
  simp only [hnone] at hb
  simp at hb
  omega

theorem c1_witness :
    count_ends (run_reporter demo_client [⟨1000000000, 500, qobuz_play_event "7"⟩]
        init_reporter_state).2.1 <
      count_starts (run_reporter demo_client [⟨1000000000, 500, qobuz_play_event "7"⟩]
        init_reporter_state).2.1 ∧
    (run_reporter demo_client [⟨1000000000, 500, qobuz_play_event "7"⟩]
        init_reporter_state).1.current_track_id.isSome = true :=
  ⟨by decide, c1_unmatched_start_implies_tracking demo_client _ (by decide)⟩

/-- C1 counterexample: after PLAYING the same provider track twice, the
queue holds one Start and one matching End (equal counts, no unmatched
Start), yet `current_track_id` is still non-null — the claimed
equivalence is false. -/
theorem c1_counterexample :
    ¬ ((run_reporter demo_client c1_trace init_reporter_state).1.current_track_id.isSome
        = true ↔
      count_ends (run_reporter demo_client c1_trace init_reporter_state).2.1 <
        count_starts (run_reporter demo_client c1_trace init_reporter_state).2.1) := by
  decide

theorem end_current_tracking_some (c : QobuzClientModel) (now date lt : Int)
    (prev : String) :
    end_current_tracking c now date ⟨lt, some prev⟩ =
      match make_end_report_message c date prev (Int.tdiv (now - lt) 1000000000) with
      | .error e => ⟨⟨now, some prev⟩, [], some e⟩
      | .ok endp => ⟨⟨now, none⟩, [.endMsg endp], none⟩ := by
  simp only [end_current_tracking, get_last_duration]

theorem end_current_tracking_none (c : QobuzClientModel) (now date lt : Int) :
    end_current_tracking c now date ⟨lt, none⟩ = ⟨⟨lt, none⟩, [], none⟩ := by
  simp only [end_current_tracking]

theorem on_state_changed_stopping (c : QobuzClientModel) (now date : Int)
    (st : PlayerStateEnum) (tr : Option RTrack) (s : ReporterState)
    (hst : st = .STOPPED ∨ st = .PAUSED ∨ st = .ERROR) :
    on_state_changed c now date (.stateChanged ⟨st, tr⟩) s =
      end_current_tracking c now date s := by
  rcases hst with h | h | h <;> subst h <;> simp only [on_state_changed]

/-- C4: on a STOPPED / PAUSED / ERROR notification, a tracked reporter
enqueues exactly one StreamingEnd for the tracked id and transitions to
IDLE; an idle reporter does nothing. -/
theorem c4_stop_pause_error_transitions (c : QobuzClientModel)
    (now date : Int) (st : PlayerStateEnum) (tr : Option RTrack)
    (hst : st = .STOPPED ∨ st = .PAUSED ∨ st = .ERROR) :
    (∀ (lt : Int) (prev : String) (endp : EndReportParams),
      make_end_report_message c date prev (Int.tdiv (now - lt) 1000000000) = .ok endp →
      on_state_changed c now date (.stateChanged ⟨st, tr⟩) ⟨lt, some prev⟩ =
        ⟨⟨now, none⟩, [.endMsg endp], none⟩)
    ∧ (∀ lt : Int,
      on_state_changed c now date (.stateChanged ⟨st, tr⟩) ⟨lt, none⟩ =
        ⟨⟨lt, none⟩, [], none⟩) := by
  constructor
  · intro lt prev endp hend
    rw [on_state_changed_stopping c now date st tr _ hst,
      end_current_tracking_some, hend]
  · intro lt
    rw [on_state_changed_stopping c now date st tr _ hst,
      end_current_tracking_none]

theorem on_state_changed_idle_play_ok (c : QobuzClientModel)
    (now date lt : Int) (b : String) (startp : StartReportParams)
    (hstart : make_start_report_message c date b = .ok startp) :
    on_state_changed c now date (qobuz_play_event b) ⟨lt, none⟩ =
      ⟨⟨now, some b⟩, [.startMsg startp], none⟩ := by
  simp only [on_state_changed, qobuz_play_event]
  rw [if_pos (by simp)]
  simp [hstart, get_last_duration]

theorem on_state_changed_change_ok (c : QobuzClientModel)
    (now date lt : Int) (prev b : String) (endp : EndReportParams)
    (startp : StartReportParams) (hne : b ≠ prev)
    (hend : make_end_report_message c date prev
      (Int.tdiv (now - lt) 1000000000) = .ok endp)
    (hstart : make_start_report_message c date b = .ok startp) :
    on_state_changed c now date (qobuz_play_event b) ⟨lt, some prev⟩ =
      ⟨⟨now, some b⟩, [.endMsg endp, .startMsg startp], none⟩ := by
  have hne2 : (some b : Option String) ≠ some prev := by simp [hne]
  simp only [on_state_changed, qobuz_play_event, get_last_duration]
  rw [if_pos hne2]
  simp [hend, hstart, hne, get_last_duration]

/-- C3: (a) starting from IDLE, PLAYING provider track A then a different
provider track B enqueues exactly [Start(A), End(A), Start(B)] in that
order and leaves B tracked (no End(B) yet); (b) in any track-change step,
the StreamingEnd for the previous track is enqueued strictly before the
StreamingStart of its successor. -/
theorem c3_end_before_next_start :
    (∀ (c : QobuzClientModel) (n1 d1 n2 d2 : Int) (a b : String)
       (pa : StartReportParams) (ea : EndReportParams)
       (pb : StartReportParams),
       b ≠ a →
       make_start_report_message c d1 a = .ok pa →
       make_end_report_message c d2 a (Int.tdiv (n2 - n1) 1000000000) = .ok ea →
       make_start_report_message c d2 b = .ok pb →
       run_reporter c [⟨n1, d1, qobuz_play_event a⟩,
           ⟨n2, d2, qobuz_play_event b⟩] init_reporter_state =
         (⟨n2, some b⟩, [.startMsg pa, .endMsg ea, .startMsg pb], []))
    ∧ ∀ (c : QobuzClientModel) (now date lt : Int) (prev b : String)
        (endp : EndReportParams) (startp : StartReportParams),
        b ≠ prev →
        make_end_report_message c date prev
          (Int.tdiv (now - lt) 1000000000) = .ok endp →
        make_start_report_message c date b = .ok startp →
        (on_state_changed c now date (qobuz_play_event b)
          ⟨lt, some prev⟩).enqueued = [.endMsg endp, .startMsg startp] := by
  constructor
  · intro c n1 d1 n2 d2 a b pa ea pb hne hsa hea hsb
    have h1 := on_state_changed_idle_play_ok c n1 d1 0 a pa hsa
    have h2 := on_state_changed_change_ok c n2 d2 n1 a b ea pb hne hea hsb
    simp only [run_reporter, init_reporter_state, h1, h2]
    rfl
  · intro c now date lt prev b endp startp hne hend hstart
    rw [on_state_changed_change_ok c now date lt prev b endp startp
      hne hend hstart]

theorem make_start_error_cache (c : QobuzClientModel) (date : Int)
    (b : String) (n : Int) (hpy : py_str_to_int b = some n)
    (hc : cache_lookup c b = none) :
    make_start_report_message c date b = .error "Track not found in cache" := by
  simp only [make_start_report_message, hpy, hc]

theorem make_start_error_int (c : QobuzClientModel) (date : Int)
    (b : String) (hpy : py_str_to_int b = none) :
    make_start_report_message c date b =
      .error "Track id is not convertible to int" := by
  simp only [make_start_report_message, hpy]

theorem make_end_error_cache (c : QobuzClientModel) (date : Int)
    (b : String) (d n : Int) (hpy : py_str_to_int b = some n)
    (hc : cache_lookup c b = none) :
    make_end_report_message c date b d = .error "Track not found in cache" := by
  simp only [make_end_report_message, hpy, hc]

theorem make_end_error_int (c : QobuzClientModel) (date : Int)
    (b : String) (d : Int) (hpy : py_str_to_int b = none) :
    make_end_report_message c date b d =
      .error "Track id is not convertible to int" := by
  simp only [make_end_report_message, hpy]

theorem on_state_changed_idle_play_error (c : QobuzClientModel)
    (now date lt : Int) (b : String) (e : String)
    (herr : make_start_report_message c date b = .error e) :
    on_state_changed c now date (qobuz_play_event b) ⟨lt, none⟩ =
      ⟨⟨lt, some b⟩, [], some e⟩ := by
  simp only [on_state_changed, qobuz_play_event]
  rw [if_pos (by simp)]
  simp [herr]

/-- C2 (amended): a track-URL-cache miss during payload construction makes
`on_state_changed` propagate an uncaught exception: the report is not
enqueued, no other report for the same event is enqueued, and the state
mutations already performed persist (the elapsed clock was reset on the
end path; `current_track_id` was already updated on the start path). -/
theorem c2_missing_cache_propagates (c : QobuzClientModel)
    (now date lt : Int) :
    (∀ (prev : String) (n : Int) (st : PlayerStateEnum) (tr : Option RTrack),
      py_str_to_int prev = some n → cache_lookup c prev = none →
      (st = .STOPPED ∨ st = .PAUSED ∨ st = .ERROR) →
      on_state_changed c now date (.stateChanged ⟨st, tr⟩) ⟨lt, some prev⟩ =
        ⟨⟨now, some prev⟩, [], some "Track not found in cache"⟩)
    ∧ (∀ (b : String) (n : Int),
      py_str_to_int b = some n → cache_lookup c b = none →
      on_state_changed c now date (qobuz_play_event b) ⟨lt, none⟩ =
        ⟨⟨lt, some b⟩, [], some "Track not found in cache"⟩) := by
  constructor
  · intro prev n st tr hpy hc hst
    rw [on_state_changed_stopping c now date st tr _ hst,
      end_current_tracking_some,
      make_end_error_cache c date prev _ n hpy hc]
  · intro b n hpy hc
    exact on_state_changed_idle_play_error c now date lt b _
      (make_start_error_cache c date b n hpy hc)

/-- C2 counterexample: with an empty cache, a tracked reporter receiving a
PLAYING notification for a new provider track raises out of
`on_state_changed`: no report at all is enqueued (in particular not the
Start for the new track, contradicting "processing of the event
continues"), and the last-report clock has been reset as a side effect
(contradicting "reporter state is unaffected"). -/
theorem c2_counterexample :
    (on_state_changed empty_cache_client 2000000000 600 (qobuz_play_event "9")
      ⟨0, some "5"⟩).error.isSome = true ∧
    (on_state_changed empty_cache_client 2000000000 600 (qobuz_play_event "9")
      ⟨0, some "5"⟩).enqueued = [] ∧
    (on_state_changed empty_cache_client 2000000000 600 (qobuz_play_event "9")
      ⟨0, some "5"⟩).state.last_report_time = 2000000000 ∧
    (on_state_changed empty_cache_client 2000000000 600 (qobuz_play_event "9")
      ⟨0, some "5"⟩).state.current_track_id = some "5" := by
  decide

/-- C10: a provider track whose raw id is not convertible to int makes
payload construction raise, and the exception propagates out of
`on_state_changed` (it is not caught, logged or dropped), even when the
track is present in the track-URL cache; both the start path and the end
path are covered. -/
theorem c10_nonint_id_propagates (c : QobuzClientModel) (now date lt : Int) :
    (∀ (x : String) (entry : TrackCacheEntry),
      py_str_to_int x = none → cache_lookup c x = some entry →
      on_state_changed c now date (qobuz_play_event x) ⟨lt, none⟩ =
        ⟨⟨lt, some x⟩, [], some "Track id is not convertible to int"⟩)
    ∧ (∀ (prev : String) (entry : TrackCacheEntry) (st : PlayerStateEnum)
        (tr : Option RTrack),
      py_str_to_int prev = none → cache_lookup c prev = some entry →
      (st = .STOPPED ∨ st = .PAUSED ∨ st = .ERROR) →
      on_state_changed c now date (.stateChanged ⟨st, tr⟩) ⟨lt, some prev⟩ =
        ⟨⟨now, some prev⟩, [], some "Track id is not convertible to int"⟩) := by
  constructor
  · intro x entry hpy hc
    exact on_state_changed_idle_play_error c now date lt x _
      (make_start_error_int c date x hpy)
  · intro prev entry st tr hpy hc hst
    rw [on_state_changed_stopping c now date st tr _ hst,
      end_current_tracking_some,
      make_end_error_int c date prev _ hpy]

theorem c3_witness :
    run_reporter demo_client c3_trace init_reporter_state =
      (⟨3000000000, some "8"⟩,
       [.startMsg ⟨11, 22, 500, 7, 6, 0, true, "streaming", false, false,
          false, 0, 200⟩,
        .endMsg demo_end_params, .startMsg demo_start_params], []) :=
  c3_end_before_next_start.1 demo_client 1000000000 500 3000000000 501
    "7" "8" ⟨11, 22, 500, 7, 6, 0, true, "streaming", false, false,
      false, 0, 200⟩ demo_end_params demo_start_params (by decide) rfl rfl rfl

theorem c4_witness :
    (on_state_changed demo_client 3000000000 501 stopped_event
        ⟨1000000000, some "7"⟩ =
      ⟨⟨3000000000, none⟩, [.endMsg demo_end_params], none⟩) ∧
    (on_state_changed demo_client 3000000000 501 stopped_event
        ⟨1000000000, none⟩ =
      ⟨⟨1000000000, none⟩, [], none⟩) :=
  ⟨(c4_stop_pause_error_transitions demo_client 3000000000 501 .STOPPED none
      (Or.inl rfl)).1 1000000000 "7" demo_end_params rfl,
   (c4_stop_pause_error_transitions demo_client 3000000000 501 .STOPPED none
      (Or.inl rfl)).2 1000000000⟩

theorem c2_witness :
    (on_state_changed empty_cache_client 9000000000 600
        (.stateChanged ⟨.ERROR, none⟩) ⟨4, some "5"⟩ =
      ⟨⟨9000000000, some "5"⟩, [], some "Track not found in cache"⟩) ∧
    (on_state_changed empty_cache_client 9000000000 600 (qobuz_play_event "9")
        ⟨4, none⟩ =
      ⟨⟨4, some "9"⟩, [], some "Track not found in cache"⟩) :=
  ⟨(c2_missing_cache_propagates empty_cache_client 9000000000 600 4).1
      "5" 5 .ERROR none (by decide) (by decide) (Or.inr (Or.inr rfl)),
   (c2_missing_cache_propagates empty_cache_client 9000000000 600 4).2
      "9" 9 (by decide) (by decide)⟩

theorem c10_witness :
    (on_state_changed demo_client 9 600 (qobuz_play_event "abc") ⟨5, none⟩ =
      ⟨⟨5, some "abc"⟩, [], some "Track id is not convertible to int"⟩) ∧
    (on_state_changed demo_client 9 600 (.stateChanged ⟨.PAUSED, none⟩)
        ⟨5, some "abc"⟩ =
      ⟨⟨9, some "abc"⟩, [], some "Track id is not convertible to int"⟩) :=
  ⟨(c10_nonint_id_propagates demo_client 9 600 5).1 "abc" ⟨6, 120⟩
      (by decide) (by decide),
   (c10_nonint_id_propagates demo_client 9 600 5).2 "abc" ⟨6, 120⟩ .PAUSED none
      (by decide) (by decide) (Or.inr (Or.inl rfl))⟩

/-- C5: the sender worker never delivers a message enqueued after the
shutdown sentinel (so no network call happens for state-change events
delivered after shutdown), and — whatever was pending before shutdown —
the worker's loop terminates at the sentinel, having delivered at most the
pre-shutdown messages. -/
theorem c5_shutdown_sender :
    (∀ (fuel : Nat) (pre post : List QueueItem) (m : ReportMessage),
      m ∈ sender_sends fuel (shutdown_enqueue pre ++ post) →
      m ∈ pre.filterMap id)
    ∧ (∀ (fuel : Nat) (pre post : List QueueItem),
      (∀ x ∈ pre, x.isSome = true) → pre.length < fuel →
      sender_sends fuel (shutdown_enqueue pre ++ post) = pre.filterMap id) := by
  have hq : ∀ pre post : List QueueItem,
      shutdown_enqueue pre ++ post = pre ++ none :: post := by
    intro pre post; simp [shutdown_enqueue]
  constructor
  · intro fuel pre post m hm
    rw [hq] at hm
    exact sender_sends_mem fuel pre post m hm
  · intro fuel pre post h1 h2
    rw [hq]
    exact sender_sends_stops_at_sentinel fuel pre post h1 h2

theorem c5_witness :
    sender_sends 2 (shutdown_enqueue [some (.startMsg demo_start_params)] ++
        [some (.endMsg demo_end_params)]) =
      [.startMsg demo_start_params] :=
  c5_shutdown_sender.2 2 [some (.startMsg demo_start_params)]
    [some (.endMsg demo_end_params)] (by decide) (by decide)

theorem five_loop_take (sug : Finset String) :
    ∀ (l acc : List ATrack), acc.length ≤ 5 →
    five_loop sug acc l =
      acc ++ (l.filter (fun t => decide (t.id.id ∉ sug))).take (5 - acc.length) := by
  intro l
  induction l with
  | nil => intro acc h; simp [five_loop]
  | cons t rest ih =>
    intro acc hle
    simp only [five_loop]
    by_cases h5 : acc.length = 5
    · rw [if_pos (by simp [h5])]
      simp [h5]
    · rw [if_neg (by simp [h5])]
      have hlt : acc.length < 5 := lt_of_le_of_ne hle h5
      by_cases hmem : t.id.id ∈ sug
      · rw [if_pos hmem, ih acc hle]
        simp [List.filter_cons, hmem]
      · rw [if_neg hmem, ih (acc ++ [t]) (by simp; omega)]
        have hfilter : List.filter (fun x => decide (x.id.id ∉ sug)) (t :: rest) =
            t :: List.filter (fun x => decide (x.id.id ∉ sug)) rest := by
          simp [List.filter_cons, hmem]
        have hn : 5 - acc.length = (5 - (acc.length + 1)) + 1 := by omega
        rw [hfilter, hn, List.take_succ_cons]
        simp

theorem retrieve_cases (oracle : List String) (s : AutoplayState) :
    (retrieve_new_recommendations oracle s = ⟨s, none, none⟩) ∨
    (∃ e, retrieve_new_recommendations oracle s = ⟨s, none, some e⟩) ∨
    (∃ ps, retrieve_new_recommendations oracle s =
      ⟨{ s with remaining_tracks := oracle, can_request_new := false },
       some ps, none⟩) := by
  simp only [retrieve_new_recommendations]
  split
  · exact Or.inl rfl
  · split
    · exact Or.inr (Or.inl ⟨_, rfl⟩)
    · split
      · exact Or.inr (Or.inl ⟨_, rfl⟩)
      · exact Or.inr (Or.inr ⟨_, rfl⟩)

/-- C6: the batch fetch analyzes exactly the up-to-5 newest provider
tracks not already suggested (newest-first scan, stopping at 5 or
exhaustion), and sends as listened exactly the other provider tracks not
in the analyzed id set — already-suggested ones included, analyzed ones
excluded; when the POST happens, its body carries precisely these lists. -/
theorem c6_batch_fetch_selection (s : AutoplayState) :
    (five_tracks_to_analyse s =
      ((qobuz_tracks s).reverse.filter
        (fun t => decide (t.id.id ∉ s.suggested_tracks))).take 5)
    ∧ (five_tracks_to_analyse s).length ≤ 5
    ∧ (∀ t ∈ five_tracks_to_analyse s, t.id.id ∉ s.suggested_tracks)
    ∧ (∀ t ∈ qobuz_tracks s, (t ∈ listened_src s ↔ t.id.id ∉ tta_ids s))
    ∧ (∀ (oracle : List String) (ps : SuggestParams),
        (retrieve_new_recommendations oracle s).posted = some ps →
        ((listened_src s).mapM (fun t => py_int t.id.id) =
            .ok ps.listened_tracks_ids
         ∧ (five_tracks_to_analyse s).mapM track_meta_to_autoplay =
            .ok ps.track_to_analysed)) := by
  have hmain : five_tracks_to_analyse s =
      ((qobuz_tracks s).reverse.filter
        (fun t => decide (t.id.id ∉ s.suggested_tracks))).take 5 := by
    rw [five_tracks_to_analyse, five_loop_take s.suggested_tracks _ [] (by simp)]
    simp
  refine ⟨hmain, ?_, ?_, ?_, ?_⟩
  · rw [hmain]
    simp [List.length_take]
  · intro t ht
    rw [hmain] at ht
    have := List.mem_of_mem_take ht
    have := List.of_mem_filter this
    simpa using this
  · intro t ht
    simp only [listened_src, List.mem_filter, ht, true_and]
    simp
  · intro oracle ps hpost
    simp only [retrieve_new_recommendations] at hpost
    split at hpost
    · simp at hpost
    · split at hpost
      · simp at hpost
      · split at hpost
        · simp at hpost
        · simp only [Option.some.injEq] at hpost
          subst hpost
          constructor
          · simpa using (by assumption :
              (listened_src s).mapM (fun t => py_int t.id.id) = .ok _)
          · simpa using (by assumption :
              (five_tracks_to_analyse s).mapM track_meta_to_autoplay = .ok _)

theorem c6_witness :
    (five_tracks_to_analyse c6_state =
      ((qobuz_tracks c6_state).reverse.filter
        (fun t => decide (t.id.id ∉ c6_state.suggested_tracks))).take 5) ∧
    (mk_qobuz_track "6" ∈ listened_src c6_state ↔
      (mk_qobuz_track "6").id.id ∉ tta_ids c6_state) :=
  ⟨(c6_batch_fetch_selection c6_state).1,
   (c6_batch_fetch_selection c6_state).2.2.2.1 (mk_qobuz_track "6") (by decide)⟩

theorem c6_scenario_analyzed : five_tracks_to_analyse c6_state =
    [mk_qobuz_track "5", mk_qobuz_track "4", mk_qobuz_track "3",
     mk_qobuz_track "2", mk_qobuz_track "1"] := by decide

theorem c6_scenario_listened :
    listened_src c6_state = [mk_qobuz_track "6", mk_qobuz_track "7"] := by
  decide

theorem add_rec_shape (oracle : List String) (s : AutoplayState) :
    ∃ base : AutoplayState,
      (base = s ∨ (s.remaining_tracks = [] ∧
        base = { s with
                 remaining_tracks := oracle,
                 can_request_new := false })) ∧
      (((add_recommendation (.requestMoreTracks oracle) s).pushed = [] ∧
        (add_recommendation (.requestMoreTracks oracle) s).state.remaining_tracks
          = base.remaining_tracks) ∨
       (∃ h0 t, base.remaining_tracks = h0 :: t ∧
        (add_recommendation (.requestMoreTracks oracle) s).pushed = [h0] ∧
        (add_recommendation (.requestMoreTracks oracle) s).state.remaining_tracks
          = t)) := by
  by_cases hrem : s.remaining_tracks.isEmpty = true
  · have hrem2 : s.remaining_tracks = [] := List.isEmpty_iff.mp hrem
    by_cases hcan : s.can_request_new = true
    · rcases retrieve_cases oracle s with h | ⟨e, h⟩ | ⟨ps, h⟩
      · refine ⟨s, Or.inl rfl, Or.inl ?_⟩
        simp [add_recommendation, hrem, hcan, h, hrem2]
      · refine ⟨s, Or.inl rfl, Or.inl ?_⟩
        simp [add_recommendation, hrem, hcan, h, hrem2]
      · refine ⟨{ s with
                  remaining_tracks := oracle,
                  can_request_new := false }, Or.inr ⟨hrem2, rfl⟩, ?_⟩
        cases oracle with
        | nil =>
          refine Or.inl ?_
          simp [add_recommendation, hrem, hcan, h]
        | cons h0 t =>
          refine Or.inr ⟨h0, t, rfl, ?_⟩
          simp [add_recommendation, hrem, hcan, h]
    · refine ⟨s, Or.inl rfl, Or.inl ?_⟩
      simp [add_recommendation, hrem, hcan, hrem2]
  · rcases hx : s.remaining_tracks with _ | ⟨h0, t⟩
    · rw [hx] at hrem; simp at hrem
    · refine ⟨s, Or.inl rfl, Or.inr ⟨h0, t, hx, ?_⟩⟩
      simp [add_recommendation, hrem, hx]

theorem run_autoplay_cons (e : AEvent) (rest : List AEvent) (s : AutoplayState) :
    run_autoplay (e :: rest) s =
      ((run_autoplay rest (autoplay_step e s).1).1,
       (autoplay_step e s).2.2.1 ++ (run_autoplay rest (autoplay_step e s).1).2) := by
  simp only [run_autoplay]

theorem autoplay_step_added (ts : List ATrack) (s : AutoplayState) :
    autoplay_step (.tracksAdded ts) s =
      (add_tracks (.tracksAdded ts) s, none, [], none) := rfl

theorem autoplay_step_other (s : AutoplayState) :
    autoplay_step .otherEvent s = (s, none, [], none) := rfl

theorem autoplay_step_removed (idx : List Nat) (s : AutoplayState) :
    autoplay_step (.tracksRemoved idx) s =
      ((remove_tracks (.tracksRemoved idx) s).1, none, [],
       (remove_tracks (.tracksRemoved idx) s).2) := by
  simp only [autoplay_step]

theorem autoplay_step_request (o : List String) (s : AutoplayState) :
    autoplay_step (.requestMoreTracks o) s =
      ((add_recommendation (.requestMoreTracks o) s).state,
       (add_recommendation (.requestMoreTracks o) s).posted,
       (add_recommendation (.requestMoreTracks o) s).pushed,
       (add_recommendation (.requestMoreTracks o) s).error) := by
  simp only [autoplay_step]

theorem oracle_ids_cons_request (o : List String) (rest : List AEvent) :
    oracle_ids (.requestMoreTracks o :: rest) = o ++ oracle_ids rest := rfl

theorem oracle_ids_cons_added (ts : List ATrack) (rest : List AEvent) :
    oracle_ids (.tracksAdded ts :: rest) = oracle_ids rest := rfl

theorem oracle_ids_cons_removed (idx : List Nat) (rest : List AEvent) :
    oracle_ids (.tracksRemoved idx :: rest) = oracle_ids rest := rfl

theorem oracle_ids_cons_other (rest : List AEvent) :
    oracle_ids (.otherEvent :: rest) = oracle_ids rest := rfl

theorem remove_tracks_remaining (idx : List Nat) (s : AutoplayState) :
    (remove_tracks (.tracksRemoved idx) s).1.remaining_tracks =
      s.remaining_tracks ∨
    (remove_tracks (.tracksRemoved idx) s).1.remaining_tracks = [] := by
  simp only [remove_tracks]
  rcases remove_loop s.tracks idx with ⟨ts, err⟩
  cases err with
  | none =>
    simp only
    split
    · exact Or.inl rfl
    · exact Or.inr rfl
  | some e => exact Or.inl rfl

theorem run_autoplay_nodup_aux :
    ∀ (evs : List AEvent) (s : AutoplayState),
    (s.remaining_tracks ++ oracle_ids evs).Nodup →
    ((run_autoplay evs s).2.Nodup ∧
      ∀ x ∈ (run_autoplay evs s).2,
        x ∈ s.remaining_tracks ++ oracle_ids evs) := by
  intro evs
  induction evs with
  | nil => intro s h; simp [run_autoplay]
  | cons e rest ih =>
    intro s h
    cases e with
    | tracksAdded ts =>
      rw [run_autoplay_cons, autoplay_step_added]
      rw [oracle_ids_cons_added] at h ⊢
      have hrm : (add_tracks (.tracksAdded ts) s).remaining_tracks =
          s.remaining_tracks := rfl
      obtain ⟨hn, hmem⟩ := ih (add_tracks (.tracksAdded ts) s) (by rw [hrm]; exact h)
      exact ⟨by simpa using hn, by intro x hx; exact hrm ▸ hmem x (by simpa using hx)⟩
    | otherEvent =>
      rw [run_autoplay_cons, autoplay_step_other]
      rw [oracle_ids_cons_other] at h ⊢
      obtain ⟨hn, hmem⟩ := ih s h
      exact ⟨by simpa using hn, by intro x hx; exact hmem x (by simpa using hx)⟩
    | tracksRemoved idx =>
      rw [run_autoplay_cons, autoplay_step_removed]
      rw [oracle_ids_cons_removed] at h ⊢
      rcases remove_tracks_remaining idx s with hrm | hrm
      · obtain ⟨hn, hmem⟩ := ih (remove_tracks (.tracksRemoved idx) s).1
          (by rw [hrm]; exact h)
        exact ⟨by simpa using hn,
          by intro x hx; exact hrm ▸ hmem x (by simpa using hx)⟩
      · obtain ⟨hn, hmem⟩ := ih (remove_tracks (.tracksRemoved idx) s).1
          (by rw [hrm]
              simpa using h.sublist (List.sublist_append_right _ _))
        refine ⟨by simpa using hn, ?_⟩
        intro x hx
        have := hmem x (by simpa using hx)
        rw [hrm] at this
        simp only [List.nil_append] at this
        simp [this]
    | requestMoreTracks oracle =>
      rw [run_autoplay_cons, autoplay_step_request]
      rw [oracle_ids_cons_request] at h ⊢
      obtain ⟨base, hbase, hpush⟩ := add_rec_shape oracle s
      have hbase_nodup : (base.remaining_tracks ++
          (oracle ++ oracle_ids rest)).Nodup ∨
          (base.remaining_tracks ++ oracle_ids rest).Nodup := by
        rcases hbase with hb | ⟨hre, hb⟩
        · subst hb; exact Or.inl h
        · subst hb
          right
          simpa [hre] using h
      have key : (base.remaining_tracks ++ oracle_ids rest).Nodup := by
        rcases hbase_nodup with hh | hh
        · refine hh.sublist ?_
          exact List.Sublist.append_left (List.sublist_append_right _ _) _
        · exact hh
      have hbase_sub : ∀ x, x ∈ base.remaining_tracks ++ oracle_ids rest →
          x ∈ s.remaining_tracks ++ (oracle ++ oracle_ids rest) := by
        intro x hx
        rcases hbase with hb | ⟨hre, hb⟩
        · subst hb
          rcases List.mem_append.mp hx with h1 | h1
          · exact List.mem_append.mpr (Or.inl h1)
          · exact List.mem_append.mpr (Or.inr (List.mem_append.mpr (Or.inr h1)))
        · subst hb
          simp only at hx
          rcases List.mem_append.mp hx with h1 | h1
          · exact List.mem_append.mpr (Or.inr (List.mem_append.mpr (Or.inl h1)))
          · exact List.mem_append.mpr (Or.inr (List.mem_append.mpr (Or.inr h1)))
      rcases hpush with ⟨hp, hr⟩ | ⟨h0, t, hbr, hp, hr⟩
      · obtain ⟨hn, hmem⟩ := ih
          (add_recommendation (.requestMoreTracks oracle) s).state
          (by rw [hr]; exact key)
        refine ⟨by simpa [hp] using hn, ?_⟩
        intro x hx
        rw [hp] at hx
        simp only [List.nil_append] at hx
        exact hbase_sub x (hr ▸ hmem x hx)
      · have hkey2 : (t ++ oracle_ids rest).Nodup := by
          rw [hbr] at key
          exact (List.nodup_cons.mp (by simpa using key)).2
        have h0_notin : h0 ∉ t ++ oracle_ids rest := by
          rw [hbr] at key
          exact (List.nodup_cons.mp (by simpa using key)).1
        obtain ⟨hn, hmem⟩ := ih
          (add_recommendation (.requestMoreTracks oracle) s).state
          (by rw [hr]; exact hkey2)
        refine ⟨?_, ?_⟩
        · rw [hp]
          simp only [List.cons_append, List.nil_append]
          refine List.nodup_cons.mpr ⟨?_, hn⟩
          intro hc
          exact h0_notin (hr ▸ hmem h0 hc)
        · intro x hx
          rw [hp] at hx
          simp only [List.cons_append, List.nil_append, List.mem_cons] at hx
          rcases hx with hx | hx
          · subst hx
            exact hbase_sub x (by rw [hbr]; simp)
          · have hx2 : x ∈ t ++ oracle_ids rest := by
              rw [← hr]; exact hmem x hx
            refine hbase_sub x ?_
            rw [hbr]
            simp only [List.cons_append, List.mem_cons]
            exact Or.inr (by simpa using hx2)

/-- C7 (amended): new batches are installed without filtering against
`suggested_tracks`, so an id returned by two batches is served twice (see
the counterexample); when the provider never returns the same id twice
across a trace, every id is pushed to the play queue at most once. -/
theorem c7_no_duplicate_push_of_fresh_oracles (evs : List AEvent)
    (h : (oracle_ids evs).Nodup) :
    (run_autoplay evs init_autoplay_state).2.Nodup :=
  (run_autoplay_nodup_aux evs init_autoplay_state
    (by simpa [init_autoplay_state] using h)).1

theorem c7_witness :
    (oracle_ids [.tracksAdded [mk_qobuz_track "1"],
      .requestMoreTracks ["200", "201"]]).Nodup ∧
    (run_autoplay [.tracksAdded [mk_qobuz_track "1"],
      .requestMoreTracks ["200", "201"]] init_autoplay_state).2.Nodup :=
  ⟨by decide, c7_no_duplicate_push_of_fresh_oracles _ (by decide)⟩

/-- C7 counterexample: the provider returns id "100" in a first batch and
again in a later batch; the autoplay engine pushes "100" to the play queue
twice, although no context reset (no track removal at all) occurred. -/
theorem c7_counterexample :
    (run_autoplay c7_trace init_autoplay_state).2 = ["100", "101", "100"] ∧
    ¬ (run_autoplay c7_trace init_autoplay_state).2.Nodup := by
  decide

theorem keep_except_nil (k : Nat) : ∀ l : List ATrack,
    keep_except [] k l = l := by
  intro l
  induction l generalizing k with
  | nil => rfl
  | cons t rest ih => simp [keep_except, ih]

theorem keep_except_all_lt (rest : List Nat) :
    ∀ (l : List ATrack) (k : Nat), (∀ j ∈ rest, j < k) →
    keep_except rest k l = l := by
  intro l
  induction l with
  | nil => intro k _; rfl
  | cons t ltail ih =>
    intro k hk
    have : k ∉ rest := fun hc => lt_irrefl k (hk k hc)
    simp only [keep_except, if_neg this]
    rw [ih (k + 1) (fun j hj => Nat.lt_succ_of_lt (hk j hj))]

theorem keep_except_erase (i : Nat) (rest : List Nat)
    (hrest : ∀ j ∈ rest, j < i) :
    ∀ (l : List ATrack) (k : Nat), k ≤ i → i - k < l.length →
    keep_except rest k (l.eraseIdx (i - k)) = keep_except (i :: rest) k l := by
  intro l
  induction l with
  | nil => intro k _ h; simp at h
  | cons t ltail ih =>
    intro k hki hlen
    rcases Nat.eq_or_lt_of_le hki with heq | hlt
    · subst heq
      simp only [Nat.sub_self, List.eraseIdx_cons_zero]
      rw [keep_except_all_lt rest ltail k hrest]
      have h2 : k ∈ k :: rest := List.mem_cons_self k rest
      simp only [keep_except, if_pos h2]
      rw [keep_except_all_lt (k :: rest) ltail (k + 1) ?_]
      intro j hj
      rcases List.mem_cons.mp hj with hj | hj
      · omega
      · have := hrest j hj
        omega
    · have hik : i - k = (i - (k + 1)) + 1 := by omega
      rw [hik, List.eraseIdx_cons_succ]
      by_cases hkmem : k ∈ rest
      · have hkmem2 : k ∈ i :: rest := by right; exact hkmem
        simp only [keep_except, if_pos hkmem, if_pos hkmem2]
        exact ih (k + 1) hlt (by simp at hlen; omega)
      · have hkmem2 : k ∉ i :: rest := by
          intro hc
          rcases List.mem_cons.mp hc with hc | hc
          · omega
          · exact hkmem hc
        simp only [keep_except, if_neg hkmem, if_neg hkmem2]
        rw [ih (k + 1) hlt (by simp at hlen; omega)]

theorem remove_loop_eq : ∀ (indices : List Nat) (l : List ATrack),
    indices.Pairwise (fun a b => b < a) →
    (∀ i ∈ indices, i < l.length) →
    remove_loop l indices = (keep_except indices 0 l, none) := by
  intro indices
  induction indices with
  | nil => intro l _ _; simp [remove_loop, keep_except_nil]
  | cons i rest ih =>
    intro l hp hin
    have hi : i < l.length := hin i (by simp)
    simp only [remove_loop, if_pos hi]
    have hrest_lt : ∀ j ∈ rest, j < i := fun j hj =>
      (List.pairwise_cons.mp hp).1 j hj
    have hin2 : ∀ j ∈ rest, j < (l.eraseIdx i).length := by
      intro j hj
      have h1 := hrest_lt j hj
      rw [List.length_eraseIdx]
      simp [hi]
      omega
    rw [ih (l.eraseIdx i) (List.pairwise_cons.mp hp).2 hin2]
    have : l.eraseIdx i = l.eraseIdx (i - 0) := by simp
    rw [this, keep_except_erase i rest hrest_lt l 0 (Nat.zero_le i)
      (by simpa using hi)]

/-- C8 (amended): each deletion indexes the mirror as already mutated by
the previous deletions, so the removed positions match the original mirror
exactly when the indices are strictly decreasing and in range; afterwards,
if no provider track remains the context is reset, otherwise
`remaining_tracks`, `suggested_tracks` and `can_request_new` are
unchanged. -/
theorem c8_remove_tracks_sequential (s : AutoplayState) (indices : List Nat)
    (hsort : indices.Pairwise (fun a b => b < a))
    (hin : ∀ i ∈ indices, i < s.tracks.length) :
    remove_tracks (.tracksRemoved indices) s =
      (let ts := keep_except indices 0 s.tracks
       if has_any_qobuz_tracks ts then { s with tracks := ts }
       else { s with
              tracks := ts, can_request_new := true,
              suggested_tracks := ∅, remaining_tracks := [] },
       none) := by
  simp only [remove_tracks]
  rw [remove_loop_eq indices s.tracks hsort hin]
  simp only []
  split <;> simp

theorem c8_witness :
    remove_tracks (.tracksRemoved [2, 0]) c8_state =
      (let ts := keep_except [2, 0] 0 c8_state.tracks
       if has_any_qobuz_tracks ts then { c8_state with tracks := ts }
       else { c8_state with
              tracks := ts, can_request_new := true,
              suggested_tracks := ∅, remaining_tracks := [] },
       none) :=
  c8_remove_tracks_sequential c8_state [2, 0] (by decide) (by decide)

/-- C8 counterexample: removing indices [0, 1] from a three-track mirror
deletes the first and the THIRD original entries (the second deletion
indexes the already-shifted list), not the entries at original positions
0 and 1. -/
theorem c8_counterexample :
    (remove_tracks (.tracksRemoved [0, 1]) c8_state).1.tracks =
      [mk_qobuz_track "2"] ∧
    keep_except [0, 1] 0 c8_state.tracks = [mk_qobuz_track "3"] ∧
    (remove_tracks (.tracksRemoved [0, 1]) c8_state).1.tracks ≠
      keep_except [0, 1] 0 c8_state.tracks := by
  decide

theorem add_recommendation_tracks_eq (oracle : List String)
    (s : AutoplayState) :
    (add_recommendation (.requestMoreTracks oracle) s).state.tracks =
      s.tracks := by
  rcases hrem : s.remaining_tracks with _ | ⟨h0, t⟩
  · have hremE : s.remaining_tracks.isEmpty = true := by simp [hrem]
    by_cases hcan : s.can_request_new = true
    · rcases retrieve_cases oracle s with h | ⟨e, h⟩ | ⟨ps, h⟩
      · simp [add_recommendation, hremE, hcan, h, hrem]
      · simp [add_recommendation, hremE, hcan, h, hrem]
      · cases oracle with
        | nil => simp [add_recommendation, hremE, hcan, h]
        | cons o os => simp [add_recommendation, hremE, hcan, h]
    · simp [add_recommendation, hremE, hcan, hrem]
  · have hremE : s.remaining_tracks.isEmpty = false := by simp [hrem]
    simp [add_recommendation, hremE, hrem]

theorem add_rec_noop (oracle : List String) (s : AutoplayState)
    (hrem : s.remaining_tracks = [])
    (hq : has_any_qobuz_tracks s.tracks = false) :
    add_recommendation (.requestMoreTracks oracle) s = ⟨s, none, [], none⟩ := by
  have hqt : (qobuz_tracks s).isEmpty = true := by
    rw [List.isEmpty_iff, qobuz_tracks, List.filter_eq_nil_iff]
    intro t ht
    rw [has_any_qobuz_tracks, List.any_eq_false] at hq
    simpa using hq t ht
  have hret : retrieve_new_recommendations oracle s = ⟨s, none, none⟩ := by
    simp only [retrieve_new_recommendations, hqt, if_true]
  simp only [add_recommendation, hrem, List.isEmpty_nil, if_true, hret]
  cases hcan : s.can_request_new <;> simp [hrem]

theorem reachable_no_qobuz_remaining :
    ∀ s : AutoplayState, ReachableOk s →
    has_any_qobuz_tracks s.tracks = false → s.remaining_tracks = [] := by
  intro s hs
  induction hs with
  | init => intro _; rfl
  | step s0 ev hr herr ih =>
    cases ev with
    | tracksAdded ts =>
      intro h
      rw [autoplay_step_added] at h ⊢
      have hs0 : has_any_qobuz_tracks s0.tracks = false := by
        simp only [add_tracks] at h
        rw [has_any_qobuz_tracks, List.any_eq_false] at h ⊢
        intro x hx
        exact h x (List.mem_append.mpr (Or.inl hx))
      exact ih hs0
    | otherEvent =>
      intro h
      rw [autoplay_step_other] at h ⊢
      exact ih h
    | tracksRemoved idx =>
      intro h
      rw [autoplay_step_removed] at h herr ⊢
      simp only [remove_tracks] at h herr ⊢
      revert h herr
      rcases remove_loop s0.tracks idx with ⟨ts, err⟩
      intro herr h
      cases err with
      | some e => simp at herr
      | none =>
        simp only at h ⊢
        cases hq : has_any_qobuz_tracks ts with
        | true =>
          rw [if_pos hq] at h
          simp [hq] at h
        | false =>
          rw [if_neg (by simp [hq])]
    | requestMoreTracks oracle =>
      intro h
      rw [autoplay_step_request] at h ⊢
      have htr := add_recommendation_tracks_eq oracle s0
      rw [htr] at h
      have hrem0 := ih h
      rw [add_rec_noop oracle s0 hrem0 h]
      exact hrem0

/-- C9 (amended): in any state reachable without a handler exception (in
particular without an IndexError inside `remove_tracks`), a
`RequestMoreTracks` event arriving while the mirror holds no provider
track is a complete no-op: no play-queue push, no `dynamic/suggest` POST,
no exception, and `remaining_tracks`, `suggested_tracks` and
`can_request_new` unchanged.  The unamended claim fails on states reached
through a mid-loop deletion error (see the counterexample). -/
theorem c9_no_op_on_qobuz_free_mirror (s : AutoplayState)
    (hs : ReachableOk s) (hq : has_any_qobuz_tracks s.tracks = false)
    (oracle : List String) :
    add_recommendation (.requestMoreTracks oracle) s = ⟨s, none, [], none⟩ :=
  add_rec_noop oracle s (reachable_no_qobuz_remaining s hs hq) hq

theorem c9_witness :
    add_recommendation (.requestMoreTracks ["5"]) init_autoplay_state =
      ⟨init_autoplay_state, none, [], none⟩ :=
  c9_no_op_on_qobuz_free_mirror init_autoplay_state ReachableOk.init
    (by decide) ["5"]

/-- C9 counterexample: after a removal event whose second index raises
IndexError mid-loop, the mirror holds no provider track but
`remaining_tracks` was never cleared; the next `RequestMoreTracks` event
pushes a track and mutates the state, contradicting the claim. -/
theorem c9_counterexample :
    has_any_qobuz_tracks c9_bad_state.tracks = false ∧
    c9_bad_state.remaining_tracks = ["101"] ∧
    (add_recommendation (.requestMoreTracks []) c9_bad_state).pushed =
      ["101"] ∧
    (add_recommendation (.requestMoreTracks []) c9_bad_state).state.remaining_tracks
      ≠ c9_bad_state.remaining_tracks := by
  decide
